import Mathlib

/-!
Verification of the addresses component of `tublitzed/application-services`.

The repository's `src/components/addresses/src/lib.rs` only declares the
modules (`address`, `db`, `engine`, `schema`, `update_plan`); the bodies of
those modules are not part of the source tree given here.  Every definition
below is therefore modelled from the specification document of the component
(data model, store operations, reconciliation decision table, deduplication,
update-plan executor and schema manager), as faithfully to its words as the
shallow embedding allows.
-/

namespace Addresses

/-- Modelled from the spec: guids are stable unique identifiers assigned at
creation and never reused.  We embed them as natural numbers handed out by a
per-store counter, which models "globally-unique, assigned at creation, never
reused". -/
abbrev Guid := Nat

/-- Modelled from the spec: the data fields of an address record — name,
organization, street address, address levels 1–3, postal code, country,
phone, email — all opaque normalized strings where "absence is represented
distinctly from empty string" (hence `Option String`).  Usage metadata
(timestamps, counters) is omitted: no decision-table rule or claim
constrains it. -/
structure AddressFields where
  name : Option String
  organization : Option String
  streetAddress : Option String
  addressLevel1 : Option String
  addressLevel2 : Option String
  addressLevel3 : Option String
  postalCode : Option String
  country : Option String
  tel : Option String
  email : Option String
deriving DecidableEq, Repr

/-- Modelled from the spec: an incoming remote record carries its guid and
its data fields. -/
structure AddressRecord where
  guid : Guid
  fields : AddressFields
deriving DecidableEq, Repr

/-- Modelled from the spec: a Local row is the current user-visible state and
"may have an unsynced-changes marker". -/
structure LocalRow where
  record : AddressFields
  unsynced : Bool
deriving DecidableEq, Repr

/-- Modelled from the spec: `IncomingChange` is a tagged union with exactly
two variants, `Remote(AddressRecord)` and `RemoteTombstone` (which names the
guid being deleted remotely). -/
inductive IncomingChange where
  | remote (r : AddressRecord)
  | remoteTombstone (g : Guid)
deriving DecidableEq, Repr

/-- The guid an incoming change is addressed to. -/
def IncomingChange.guid : IncomingChange → Guid
  | .remote r => r.guid
  | .remoteTombstone g => g

/-! ### Association-list primitives for the three keyed tables -/

/-- Lookup in a guid-keyed association list. -/
def alGet : List (Guid × α) → Guid → Option α
  | [], _ => none
  | p :: t, g => if p.1 = g then some p.2 else alGet t g

/-- Remove every row keyed by `g`. -/
def alErase : List (Guid × α) → Guid → List (Guid × α)
  | [], _ => []
  | p :: t, g => if p.1 = g then alErase t g else p :: alErase t g

/-- Set the row keyed by `g` (removing any previous row for `g`). -/
def alSet (l : List (Guid × α)) (g : Guid) (v : α) : List (Guid × α) :=
  (g, v) :: alErase l g

/-- Membership of a guid in a plain guid list (the tombstone table). -/
def gMem : List Guid → Guid → Bool
  | [], _ => false
  | x :: t, g => x = g || gMem t g

/-- Remove a guid from a guid list. -/
def gErase : List Guid → Guid → List Guid
  | [], _ => []
  | x :: t, g => if x = g then gErase t g else x :: gErase t g

/-- Insert a guid into a guid list, keeping at most one copy. -/
def gInsert (l : List Guid) (g : Guid) : List Guid :=
  g :: gErase l g

/-! ### Store state

Modelled from the spec: "three separate keyed mappings from guid to optional
row" for Local, Mirror and Tombstone, plus the guid-allocation counter of the
store ("guid generation").  The field `localRows` embeds the Local table
(`local` is a reserved word in Lean). -/

structure StoreState where
  localRows : List (Guid × LocalRow)
  mirrorRows : List (Guid × AddressFields)
  tombstones : List Guid
  nextId : Nat
deriving DecidableEq, Repr

/-- The empty store a fresh instance opens with. -/
def StoreState.empty : StoreState := ⟨[], [], [], 0⟩

/-- `get_local` read accessor: returns absent rather than erroring. -/
def getLocal (s : StoreState) (g : Guid) : Option LocalRow :=
  alGet s.localRows g

/-- `get_mirror` read accessor. -/
def getMirror (s : StoreState) (g : Guid) : Option AddressFields :=
  alGet s.mirrorRows g

/-- Tombstone lookup: `true` when a deletion marker is present for `g`. -/
def getTombstone (s : StoreState) (g : Guid) : Bool :=
  gMem s.tombstones g

/-! ### Errors -/

/-- Modelled from the spec: the store error taxonomy — `NotFound`,
`InvalidField`, `Conflict`. -/
inductive StoreError where
  | notFound
  | invalidField
  | conflict
deriving DecidableEq, Repr

/-- Modelled from the spec: the schema error taxonomy — `TooNew`,
`MigrationFailed`. -/
inductive SchemaError where
  | tooNew
  | migrationFailed
deriving DecidableEq, Repr

/-! ### Store CRUD operations -/

/-- Modelled from the spec: `insert_local` "fails with `StoreError::InvalidField`
if a mandatory field is missing".  The spec does not enumerate the mandatory
field set; we model it as the address-identity core used by dedupe, street
address and country. -/
def mandatoryOk (f : AddressFields) : Bool :=
  f.streetAddress.isSome && f.country.isSome

/-- Modelled from the spec: `insert_local(record) -> guid` — "assigns a new
guid, marks unsynced, fails with `StoreError::InvalidField` if a mandatory
field is missing". -/
def insertLocal (s : StoreState) (f : AddressFields) :
    Except StoreError (Guid × StoreState) :=
  if mandatoryOk f then
    .ok (s.nextId,
      { s with localRows := alSet s.localRows s.nextId ⟨f, true⟩,
               nextId := s.nextId + 1 })
  else .error .invalidField

/-- Modelled from the spec: `update_local(guid, patch)` — "fails with
`NotFound` if guid does not exist as Local; marks unsynced".  The patch is
modelled as the replacement field set. -/
def updateLocal (s : StoreState) (g : Guid) (f : AddressFields) :
    Except StoreError StoreState :=
  match getLocal s g with
  | none => .error .notFound
  | some _ => .ok { s with localRows := alSet s.localRows g ⟨f, true⟩ }

/-- Modelled from the spec: `delete_local(guid)` — "if a Mirror row exists
for guid, replaces Local with a Tombstone; else purges all rows for guid.
Idempotent — deleting an already-absent guid is a no-op, not an error." -/
def deleteLocal (s : StoreState) (g : Guid) : StoreState :=
  if (getMirror s g).isSome then
    { s with localRows := alErase s.localRows g,
             tombstones := gInsert s.tombstones g }
  else
    { s with localRows := alErase s.localRows g,
             mirrorRows := alErase s.mirrorRows g,
             tombstones := gErase s.tombstones g }

/-! ### Field equality and merging -/

/-- Modelled from the spec: the field-level equality predicate used by
deduplication "treats absent and empty-string fields as equal but is
otherwise exact string equality". -/
def fieldEq (a b : Option String) : Bool :=
  a.getD "" = b.getD ""

/-- Modelled from the spec: the dedupe candidate test compares the
address-identity fields — street, postal code and country — with `fieldEq`. -/
def dupeCandidate (f r : AddressFields) : Bool :=
  fieldEq f.streetAddress r.streetAddress &&
  fieldEq f.postalCode r.postalCode &&
  fieldEq f.country r.country

/-- Scan the Local table for the first dedupe candidate of `r`. -/
def findDupe (l : List (Guid × LocalRow)) (r : AddressFields) :
    Option (Guid × LocalRow) :=
  l.find? (fun p => dupeCandidate p.2.record r)

/-- Modelled from the spec: per-field three-way merge rule — "if Local ==
mirror field (user never touched it) adopt remote's value; if Local != mirror
field (user touched it) keep Local's value regardless of remote". -/
def mergeField (l m r : Option String) : Option String :=
  if l = m then r else l

/-- The all-absent field set, used as the merge baseline when no Mirror row
exists. -/
def AddressFields.allAbsent : AddressFields :=
  ⟨none, none, none, none, none, none, none, none, none, none⟩

/-- Three-way merge of a whole record against the mirror baseline `m`. -/
def merge3 (l m r : AddressFields) : AddressFields where
  name := mergeField l.name m.name r.name
  organization := mergeField l.organization m.organization r.organization
  streetAddress := mergeField l.streetAddress m.streetAddress r.streetAddress
  addressLevel1 := mergeField l.addressLevel1 m.addressLevel1 r.addressLevel1
  addressLevel2 := mergeField l.addressLevel2 m.addressLevel2 r.addressLevel2
  addressLevel3 := mergeField l.addressLevel3 m.addressLevel3 r.addressLevel3
  postalCode := mergeField l.postalCode m.postalCode r.postalCode
  country := mergeField l.country m.country r.country
  tel := mergeField l.tel m.tel r.tel
  email := mergeField l.email m.email r.email

/-! ### Update plans and the executor -/

/-- A primitive row mutation of an update plan. -/
inductive Mutation where
  | putLocal (g : Guid) (row : LocalRow)
  | delLocal (g : Guid)
  | putMirror (g : Guid) (f : AddressFields)
  | delMirror (g : Guid)
  | putTomb (g : Guid)
  | delTomb (g : Guid)
deriving DecidableEq, Repr

/-- Apply one primitive mutation to the store. -/
def applyMutation (s : StoreState) : Mutation → StoreState
  | .putLocal g row => { s with localRows := alSet s.localRows g row }
  | .delLocal g => { s with localRows := alErase s.localRows g }
  | .putMirror g f => { s with mirrorRows := alSet s.mirrorRows g f }
  | .delMirror g => { s with mirrorRows := alErase s.mirrorRows g }
  | .putTomb g => { s with tombstones := gInsert s.tombstones g }
  | .delTomb g => { s with tombstones := gErase s.tombstones g }

/-- Modelled from the spec: the executor "must re-validate preconditions
(local/mirror snapshot used in planning still matches) before committing". -/
structure Snapshot where
  guid : Guid
  localSnap : Option LocalRow
  mirrorSnap : Option AddressFields
deriving DecidableEq, Repr

/-- Does a planning-time snapshot still match the store? -/
def Snapshot.holds (s : StoreState) (sn : Snapshot) : Bool :=
  decide (getLocal s sn.guid = sn.localSnap) &&
  decide (getMirror s sn.guid = sn.mirrorSnap)

/-- Modelled from the spec: an update plan is "the computed set of mutations
(insert/update/delete/merge) to apply for one guid", together with the
snapshots it was planned against. -/
structure UpdatePlan where
  preconds : List Snapshot
  muts : List Mutation
deriving DecidableEq, Repr

/-- Modelled from the spec: `apply(plan)` applies the whole plan atomically —
"on any constraint violation the entire plan aborts without partial row
changes and surfaces `StoreError::Conflict`".  The pair result carries the
(possibly unchanged) store and the error, if any. -/
def applyPlan (s : StoreState) (p : UpdatePlan) : StoreState × Option StoreError :=
  if p.preconds.all (Snapshot.holds s) then
    (p.muts.foldl applyMutation s, none)
  else
    (s, some .conflict)

/-! ### The reconciliation engine -/

/-- A single-guid plan whose precondition is the current snapshot of `g`. -/
def planFor (g : Guid) (s : StoreState) (muts : List Mutation) : UpdatePlan :=
  ⟨[⟨g, getLocal s g, getMirror s g⟩], muts⟩

/-- Modelled from the spec: the reconciliation decision table of §4.4
(evaluated in order, first match wins), the tombstone resurrection guard
("retained so a deletion can be distinguished from never seen"), and the
deduplication rule (run only for a brand-new incoming record; the incoming
guid is adopted as canonical if the matched local guid was never synced
(no Mirror row) and the losing guid is then purged outright, otherwise the
existing guid stays canonical and the incoming data updates its Mirror).
State combinations the table does not list produce an empty plan.  Merging
with no mirror baseline uses the all-absent baseline, so a field the user
populated is kept and an unpopulated one adopts the remote value; in every
merge row the Mirror is replaced by the remote record and the row stays
unsynced exactly when the merge result still differs from that new
Mirror. -/
def reconcile (s : StoreState) (c : IncomingChange) : UpdatePlan :=
  match c with
  | .remoteTombstone g =>
    match getLocal s g with
    | some l =>
      if l.unsynced then
        planFor g s [.delMirror g, .delTomb g]
      else
        planFor g s []
    | none =>
      match getMirror s g with
      | some _ => planFor g s [.delMirror g, .delTomb g]
      | none => planFor g s []
  | .remote r =>
    let g := r.guid
    match getLocal s g, getMirror s g with
    | none, none =>
      if getTombstone s g then
        planFor g s []
      else
        match findDupe s.localRows r.fields with
        | some (g', l') =>
          match getMirror s g' with
          | none =>
            let merged := merge3 l'.record AddressFields.allAbsent r.fields
            { preconds := [⟨g, none, none⟩, ⟨g', getLocal s g', none⟩],
              muts := [.delLocal g',
                       .putLocal g ⟨merged, decide (merged ≠ r.fields)⟩,
                       .putMirror g r.fields] }
          | some m' =>
            { preconds := [⟨g, none, none⟩, ⟨g', getLocal s g', some m'⟩],
              muts := [.putMirror g' r.fields] }
        | none =>
          planFor g s [.putLocal g ⟨r.fields, false⟩, .putMirror g r.fields]
    | none, some m =>
      if r.fields = m then planFor g s []
      else planFor g s [.putMirror g r.fields]
    | some l, none =>
      if l.unsynced then
        let merged := merge3 l.record AddressFields.allAbsent r.fields
        planFor g s [.putLocal g ⟨merged, decide (merged ≠ r.fields)⟩,
                     .putMirror g r.fields]
      else
        planFor g s []
    | some l, some m =>
      if l.unsynced then
        if r.fields = m then
          planFor g s []
        else
          let merged := merge3 l.record m r.fields
          planFor g s [.putLocal g ⟨merged, decide (merged ≠ r.fields)⟩,
                       .putMirror g r.fields]
      else
        planFor g s [.putLocal g ⟨r.fields, false⟩, .putMirror g r.fields]

/-- Modelled from the spec: the public engine applies one incoming change —
fetch state, compute the plan, apply it.  The allocation counter is advanced
past the incoming guid, modelling that guids are never reused once seen. -/
def applyIncoming (s : StoreState) (c : IncomingChange) : StoreState :=
  let s' := (applyPlan s (reconcile s c)).1
  { s' with nextId := max s'.nextId (c.guid + 1) }

/-! ### Schema manager -/

/-- Modelled from the spec: the ordered migration steps from one schema
version to the next.  Their row-level content is not given by the spec
(migrations are only required to be additive and idempotent), so each step is
embedded as the identity on the logical store. -/
def migrations : List (StoreState → StoreState) := [id, id]

/-- The highest schema version the code knows how to reach. -/
def maxKnownVersion : Nat := migrations.length

/-- A persisted database: its schema version marker plus its logical rows. -/
structure Db where
  version : Nat
  store : StoreState

/-- Modelled from the spec: `ensure_current` "applies pending migrations in
order inside one transaction; fails with `SchemaError::TooNew` if the
persisted version exceeds the highest known migration", leaving the persisted
state untouched when it refuses. -/
def ensureCurrent (db : Db) : Db × Option SchemaError :=
  if maxKnownVersion < db.version then
    (db, some .tooNew)
  else
    (⟨maxKnownVersion, ((migrations.drop db.version).foldl (fun st m => m st) db.store)⟩,
     none)

/-! ### Sample data for concrete witnesses -/

/-- A concrete, fully populated sample record. -/
def sampleFields : AddressFields :=
  ⟨some "Ann Example", none, some "1 Main St", some "Springfield", none, none,
   some "12345", some "US", some "555-0100", some "ann@example.com"⟩

/-- `sampleFields` with an edited name. -/
def sampleFieldsName : AddressFields :=
  { sampleFields with name := some "Ann B. Example" }

/-- `sampleFields` with an edited street (a local-only edit). -/
def sampleFieldsStreet : AddressFields :=
  { sampleFields with streetAddress := some "2 Oak Ave" }

/-- `sampleFields` with an edited city (a remote-only edit). -/
def sampleFieldsCity : AddressFields :=
  { sampleFields with addressLevel1 := some "Shelbyville" }

/-! ### Named result states of the executor

Each of these spells out, as one definition, the store an update plan of the
corresponding shape leaves behind; the idempotence analysis names them so
that the lookups of intermediate states stay readable. -/

/-- The store with only the allocation counter advanced (empty plan). -/
def withNextId (s : StoreState) (n : Nat) : StoreState :=
  { s with nextId := n }

/-- The store after dropping Mirror and Tombstone of `g`. -/
def purgedMirrorTomb (s : StoreState) (g : Guid) (n : Nat) : StoreState :=
  { s with mirrorRows := alErase s.mirrorRows g,
           tombstones := gErase s.tombstones g,
           nextId := n }

/-- The store after installing Local `row` and Mirror `f` for `g`. -/
def putBothSt (s : StoreState) (g : Guid) (row : LocalRow) (f : AddressFields)
    (n : Nat) : StoreState :=
  { s with localRows := alSet s.localRows g row,
           mirrorRows := alSet s.mirrorRows g f,
           nextId := n }

/-- The store after installing only Mirror `f` for `g`. -/
def putMirrorSt (s : StoreState) (g : Guid) (f : AddressFields) (n : Nat) :
    StoreState :=
  { s with mirrorRows := alSet s.mirrorRows g f, nextId := n }

/-- The store after a dedupe merge: the loser `g1`'s Local row is purged and
the winner `g` gets Local `row` plus Mirror `f`. -/
def dedupeMergeSt (s : StoreState) (g g1 : Guid) (row : LocalRow)
    (f : AddressFields) (n : Nat) : StoreState :=
  { s with localRows := alSet (alErase s.localRows g1) g row,
           mirrorRows := alSet s.mirrorRows g f,
           nextId := n }

/-- The store a successful `insert_local` leaves: the new row under the
freshly allocated guid, marked unsynced, and the counter advanced. -/
def insertedSt (s : StoreState) (f : AddressFields) : StoreState :=
  { s with localRows := alSet s.localRows s.nextId ⟨f, true⟩,
           nextId := s.nextId + 1 }

/-- The store a successful `update_local` leaves: the replaced row, marked
unsynced. -/
def updatedSt (s : StoreState) (g : Guid) (f : AddressFields) : StoreState :=
  { s with localRows := alSet s.localRows g ⟨f, true⟩ }

/-- The store `delete_local` leaves when a Mirror row exists: the Local row
replaced by a Tombstone. -/
def tombstonedSt (s : StoreState) (g : Guid) : StoreState :=
  { s with localRows := alErase s.localRows g,
           tombstones := gInsert s.tombstones g }

/-- The store `delete_local` leaves when no Mirror row exists: every row of
the guid purged. -/
def purgedAllSt (s : StoreState) (g : Guid) : StoreState :=
  { s with localRows := alErase s.localRows g,
           mirrorRows := alErase s.mirrorRows g,
           tombstones := gErase s.tombstones g }

/-! ### Lookup lemmas for the primitives -/

theorem alGet_alErase_self (l : List (Guid × α)) (g : Guid) :
    alGet (alErase l g) g = none := by
  induction l with
  | nil => rfl
  | cons p t ih => by_cases h : p.1 = g <;> simp [alErase, alGet, h, ih]

theorem alGet_alErase_ne (l : List (Guid × α)) {g g' : Guid} (h : g' ≠ g) :
    alGet (alErase l g) g' = alGet l g' := by
  induction l with
  | nil => rfl
  | cons p t ih =>
    have hgg : ¬ g = g' := fun hc => h hc.symm
    by_cases hp : p.1 = g
    · have hpg : ¬ p.1 = g' := by rw [hp]; exact fun hc => h hc.symm
      simp [alErase, alGet, hp, hpg, hgg, h, ih]
    · by_cases hq : p.1 = g' <;> simp [alErase, alGet, hp, hq, hgg, h, ih]

theorem alGet_alSet_self (l : List (Guid × α)) (g : Guid) (v : α) :
    alGet (alSet l g v) g = some v := by
  simp [alSet, alGet]

theorem alGet_alSet_ne (l : List (Guid × α)) {g g' : Guid} (v : α) (h : g' ≠ g) :
    alGet (alSet l g v) g' = alGet l g' := by
  have hne : ¬ (g = g') := fun hc => h hc.symm
  simp [alSet, alGet, hne, alGet_alErase_ne l h]

theorem gMem_gErase_self (l : List Guid) (g : Guid) :
    gMem (gErase l g) g = false := by
  induction l with
  | nil => rfl
  | cons x t ih => by_cases h : x = g <;> simp [gErase, gMem, h, ih]

theorem gMem_gErase_ne (l : List Guid) {g g' : Guid} (h : g' ≠ g) :
    gMem (gErase l g) g' = gMem l g' := by
  induction l with
  | nil => rfl
  | cons x t ih =>
    have hgg : ¬ g = g' := fun hc => h hc.symm
    by_cases hx : x = g
    · have hxg : ¬ x = g' := by rw [hx]; exact fun hc => h hc.symm
      simp [gErase, gMem, hx, hxg, hgg, h, ih]
    · by_cases hq : x = g' <;> simp [gErase, gMem, hx, hq, hgg, h, ih]

theorem gMem_gInsert_self (l : List Guid) (g : Guid) :
    gMem (gInsert l g) g = true := by
  simp [gInsert, gMem]

theorem gMem_gInsert_ne (l : List Guid) {g g' : Guid} (h : g' ≠ g) :
    gMem (gInsert l g) g' = gMem l g' := by
  have hne : ¬ (g = g') := fun hc => h hc.symm
  simp [gInsert, gMem, hne, gMem_gErase_ne l h]

theorem alErase_of_absent (l : List (Guid × α)) (g : Guid) (h : alGet l g = none) :
    alErase l g = l := by
  induction l with
  | nil => rfl
  | cons p t ih =>
    by_cases hp : p.1 = g
    · simp [alGet, hp] at h
    · simp [alGet, hp] at h
      simp [alErase, hp, ih h]

theorem gErase_of_absent (l : List Guid) (g : Guid) (h : gMem l g = false) :
    gErase l g = l := by
  induction l with
  | nil => rfl
  | cons x t ih =>
    by_cases hx : x = g
    · simp [gMem, hx] at h
    · simp [gMem, hx] at h
      simp [gErase, hx, ih h]

/-! ### General lemmas about the executor and the engine -/

theorem applyPlan_planFor (s : StoreState) (g : Guid) (muts : List Mutation) :
    applyPlan s (planFor g s muts) = (muts.foldl applyMutation s, none) := by
  simp [applyPlan, planFor, Snapshot.holds]

theorem getLocal_nextId (s : StoreState) (n : Nat) (g : Guid) :
    getLocal { s with nextId := n } g = getLocal s g := rfl

theorem getMirror_nextId (s : StoreState) (n : Nat) (g : Guid) :
    getMirror { s with nextId := n } g = getMirror s g := rfl

theorem getTombstone_nextId (s : StoreState) (n : Nat) (g : Guid) :
    getTombstone { s with nextId := n } g = getTombstone s g := rfl

theorem alGet_isSome_of_mem {l : List (Guid × α)} {g : Guid} {v : α}
    (h : (g, v) ∈ l) : (alGet l g).isSome := by
  induction l with
  | nil => cases h
  | cons p t ih =>
    rcases List.mem_cons.mp h with h1 | h2
    · simp [alGet, ← h1]
    · by_cases hp : p.1 = g
      · simp [alGet, hp]
      · simpa [alGet, hp] using ih h2

theorem findDupe_mem {l : List (Guid × LocalRow)} {r : AddressFields}
    {g : Guid} {row : LocalRow} (h : findDupe l r = some (g, row)) :
    (g, row) ∈ l :=
  List.mem_of_find?_eq_some h

/-- If the dedupe scan finds a row under `g'`, then `g'` has a Local row. -/
theorem findDupe_isSome_getLocal {s : StoreState} {r : AddressFields}
    {g' : Guid} {row : LocalRow} (h : findDupe s.localRows r = some (g', row)) :
    (getLocal s g').isSome :=
  alGet_isSome_of_mem (findDupe_mem h)

/-! ## Claims -/

/-- C1.  For every guid whose Local row is present and marked unsynced, and
any mirror state, reconciling an incoming `RemoteTombstone` keeps the Local
row unchanged (hence still unsynced), removes the Mirror row, and leaves no
Tombstone for that guid. -/
theorem tombstone_vs_unsynced_local_keeps_local
    (s : StoreState) (g : Guid) (l : LocalRow)
    (hl : getLocal s g = some l) (hu : l.unsynced = true) :
    getLocal (applyIncoming s (.remoteTombstone g)) g = some l ∧
    getMirror (applyIncoming s (.remoteTombstone g)) g = none ∧
    getTombstone (applyIncoming s (.remoteTombstone g)) g = false := by
  have hrec : reconcile s (.remoteTombstone g) =
      planFor g s [.delMirror g, .delTomb g] := by
    simp [reconcile, hl, hu]
  simp [applyIncoming, hrec, applyPlan_planFor, List.foldl, applyMutation,
        getLocal, getMirror, getTombstone]
  exact ⟨hl, alGet_alErase_self _ _, gMem_gErase_self _ _⟩

/-- Witness for C1: a concrete store with an unsynced local edit and a
mirror; the incoming remote tombstone keeps the local row, drops the mirror
and writes no tombstone. -/
theorem tombstone_vs_unsynced_local_keeps_local_witness :
    getLocal ⟨[(0, ⟨sampleFieldsName, true⟩)], [(0, sampleFields)], [], 1⟩ 0 =
      some ⟨sampleFieldsName, true⟩ ∧
    (⟨sampleFieldsName, true⟩ : LocalRow).unsynced = true ∧
    (getLocal (applyIncoming ⟨[(0, ⟨sampleFieldsName, true⟩)], [(0, sampleFields)], [], 1⟩
        (.remoteTombstone 0)) 0 = some ⟨sampleFieldsName, true⟩ ∧
     getMirror (applyIncoming ⟨[(0, ⟨sampleFieldsName, true⟩)], [(0, sampleFields)], [], 1⟩
        (.remoteTombstone 0)) 0 = none ∧
     getTombstone (applyIncoming ⟨[(0, ⟨sampleFieldsName, true⟩)], [(0, sampleFields)], [], 1⟩
        (.remoteTombstone 0)) 0 = false) :=
  ⟨rfl, rfl,
   tombstone_vs_unsynced_local_keeps_local _ 0 ⟨sampleFieldsName, true⟩ rfl rfl⟩

/-- C2.  With a present unsynced Local row, a present Mirror `m`, and an
incoming `Remote(r)` with `r ≠ m`, the three-way merge keeps each field where
Local differs from `m` and adopts `r`'s value where Local agrees with `m`;
the Mirror is replaced by `r`'s fields, and the row stays unsynced exactly
when some merged field differs from that new Mirror.  (The disjoint
street/city edit scenario is the instance proved by the witness.) -/
theorem three_way_merge_spec
    (s : StoreState) (r : AddressRecord) (l : LocalRow) (m : AddressFields)
    (hl : getLocal s r.guid = some l) (hu : l.unsynced = true)
    (hm : getMirror s r.guid = some m) (hne : r.fields ≠ m) :
    ∃ row : LocalRow,
      getLocal (applyIncoming s (.remote r)) r.guid = some row ∧
      getMirror (applyIncoming s (.remote r)) r.guid = some r.fields ∧
      row.record.name =
        (if l.record.name = m.name then r.fields.name else l.record.name) ∧
      row.record.organization =
        (if l.record.organization = m.organization then r.fields.organization
         else l.record.organization) ∧
      row.record.streetAddress =
        (if l.record.streetAddress = m.streetAddress then r.fields.streetAddress
         else l.record.streetAddress) ∧
      row.record.addressLevel1 =
        (if l.record.addressLevel1 = m.addressLevel1 then r.fields.addressLevel1
         else l.record.addressLevel1) ∧
      row.record.addressLevel2 =
        (if l.record.addressLevel2 = m.addressLevel2 then r.fields.addressLevel2
         else l.record.addressLevel2) ∧
      row.record.addressLevel3 =
        (if l.record.addressLevel3 = m.addressLevel3 then r.fields.addressLevel3
         else l.record.addressLevel3) ∧
      row.record.postalCode =
        (if l.record.postalCode = m.postalCode then r.fields.postalCode
         else l.record.postalCode) ∧
      row.record.country =
        (if l.record.country = m.country then r.fields.country
         else l.record.country) ∧
      row.record.tel =
        (if l.record.tel = m.tel then r.fields.tel else l.record.tel) ∧
      row.record.email =
        (if l.record.email = m.email then r.fields.email else l.record.email) ∧
      (row.unsynced = true ↔ row.record ≠ r.fields) := by
  have hrec : reconcile s (.remote r) =
      planFor r.guid s
        [.putLocal r.guid
           ⟨merge3 l.record m r.fields,
            decide (merge3 l.record m r.fields ≠ r.fields)⟩,
         .putMirror r.guid r.fields] := by
    simp [reconcile, hl, hm, hu, hne]
  refine ⟨⟨merge3 l.record m r.fields,
           decide (merge3 l.record m r.fields ≠ r.fields)⟩, ?_, ?_,
          ?_, ?_, ?_, ?_, ?_, ?_, ?_, ?_, ?_, ?_, ?_⟩
  · simp [applyIncoming, hrec, applyPlan_planFor, List.foldl, applyMutation,
          getLocal, alGet_alSet_self]
  · simp [applyIncoming, hrec, applyPlan_planFor, List.foldl, applyMutation,
          getMirror, alGet_alSet_self]
  all_goals simp [merge3, mergeField]

/-- Witness for C2: Local edited only the street, the incoming remote edited
only the city; the merged row carries both edits (street from Local, city
from Remote) and stays unsynced. -/
theorem three_way_merge_spec_witness :
    getLocal ⟨[(0, ⟨sampleFieldsStreet, true⟩)], [(0, sampleFields)], [], 1⟩ 0 =
      some ⟨sampleFieldsStreet, true⟩ ∧
    (⟨sampleFieldsStreet, true⟩ : LocalRow).unsynced = true ∧
    getMirror ⟨[(0, ⟨sampleFieldsStreet, true⟩)], [(0, sampleFields)], [], 1⟩ 0 =
      some sampleFields ∧
    (⟨0, sampleFieldsCity⟩ : AddressRecord).fields ≠ sampleFields ∧
    (∃ row : LocalRow,
      getLocal (applyIncoming ⟨[(0, ⟨sampleFieldsStreet, true⟩)],
          [(0, sampleFields)], [], 1⟩
          (.remote ⟨0, sampleFieldsCity⟩)) (0 : Guid) = some row ∧
      getMirror (applyIncoming ⟨[(0, ⟨sampleFieldsStreet, true⟩)],
          [(0, sampleFields)], [], 1⟩
          (.remote ⟨0, sampleFieldsCity⟩)) (0 : Guid) =
        some (⟨0, sampleFieldsCity⟩ : AddressRecord).fields ∧
      row.record.streetAddress = some "2 Oak Ave" ∧
      row.record.addressLevel1 = some "Shelbyville" ∧
      row.unsynced = true) := by
  have hgen := three_way_merge_spec
    ⟨[(0, ⟨sampleFieldsStreet, true⟩)], [(0, sampleFields)], [], 1⟩
    ⟨0, sampleFieldsCity⟩ ⟨sampleFieldsStreet, true⟩ sampleFields
    rfl rfl rfl (by decide)
  refine ⟨rfl, rfl, rfl, by decide, ?_⟩
  obtain ⟨row, h1, h2, -, -, hstreet, hcity, -, -, -, -, -, -, hun⟩ := hgen
  refine ⟨row, h1, h2, ?_, ?_, ?_⟩
  · rw [hstreet]; decide
  · rw [hcity]; decide
  · rw [hun]
    intro hc
    have : row.record.streetAddress = sampleFieldsCity.streetAddress := by rw [hc]
    rw [hstreet] at this
    revert this
    decide

/-- C4.  A guid that holds a Tombstone (and therefore has no Local row)
never gets a Local row back from an incoming `Remote(r)` for that same guid:
deletions are not resurrected. -/
theorem tombstone_never_resurrected
    (s : StoreState) (r : AddressRecord)
    (ht : getTombstone s r.guid = true) (hl : getLocal s r.guid = none) :
    getLocal (applyIncoming s (.remote r)) r.guid = none := by
  rcases hm : getMirror s r.guid with _ | m
  · have hrec : reconcile s (.remote r) = planFor r.guid s [] := by
      simp [reconcile, hl, hm, ht]
    simpa [applyIncoming, hrec, applyPlan_planFor, List.foldl, getLocal] using hl
  · by_cases hrm : r.fields = m
    · have hrec : reconcile s (.remote r) = planFor r.guid s [] := by
        simp [reconcile, hl, hm, hrm]
      simpa [applyIncoming, hrec, applyPlan_planFor, List.foldl, getLocal] using hl
    · have hrec : reconcile s (.remote r) =
          planFor r.guid s [.putMirror r.guid r.fields] := by
        simp [reconcile, hl, hm, hrm]
      simpa [applyIncoming, hrec, applyPlan_planFor, List.foldl, applyMutation,
             getLocal] using hl

/-- Witness for C4: guid 0 was deleted locally (Tombstone plus its old
Mirror); a stale remote copy for guid 0 does not recreate a Local row. -/
theorem tombstone_never_resurrected_witness :
    getTombstone ⟨[], [(0, sampleFields)], [0], 1⟩ (0 : Guid) = true ∧
    getLocal ⟨[], [(0, sampleFields)], [0], 1⟩ (0 : Guid) = none ∧
    getLocal (applyIncoming ⟨[], [(0, sampleFields)], [0], 1⟩
      (.remote ⟨0, sampleFieldsCity⟩)) (0 : Guid) = none :=
  ⟨rfl, rfl,
   tombstone_never_resurrected ⟨[], [(0, sampleFields)], [0], 1⟩
     ⟨0, sampleFieldsCity⟩ rfl rfl⟩

/-- C5.  When a brand-new incoming record (its guid has no Local, Mirror or
Tombstone row) finds a dedupe candidate `g1` that was never synced (no
Mirror), the plan merges by dedupe: exactly one Local row survives, under the
incoming guid, and the losing guid `g1` is purged outright — no Local, no
Mirror and no Tombstone for it. -/
theorem dedupe_merges_unsynced_duplicates
    (s : StoreState) (r : AddressRecord) (g1 : Guid) (l1 : LocalRow)
    (hfl : getLocal s r.guid = none) (hfm : getMirror s r.guid = none)
    (hft : getTombstone s r.guid = false)
    (hfind : findDupe s.localRows r.fields = some (g1, l1))
    (hm1 : getMirror s g1 = none) (ht1 : getTombstone s g1 = false) :
    getLocal (applyIncoming s (.remote r)) r.guid =
      some ⟨merge3 l1.record AddressFields.allAbsent r.fields,
            decide (merge3 l1.record AddressFields.allAbsent r.fields ≠ r.fields)⟩ ∧
    getMirror (applyIncoming s (.remote r)) r.guid = some r.fields ∧
    getLocal (applyIncoming s (.remote r)) g1 = none ∧
    getMirror (applyIncoming s (.remote r)) g1 = none ∧
    getTombstone (applyIncoming s (.remote r)) g1 = false := by
  have hg1 : g1 ≠ r.guid := by
    intro hc
    have hsome := findDupe_isSome_getLocal hfind
    rw [hc] at hsome
    rw [show getLocal s r.guid = alGet s.localRows r.guid from rfl] at hsome
    rw [show (getLocal s r.guid = none) = (alGet s.localRows r.guid = none)
      from rfl] at hfl
    rw [hfl] at hsome
    exact absurd hsome (by simp)
  have hrec : reconcile s (.remote r) =
      { preconds := [⟨r.guid, none, none⟩, ⟨g1, getLocal s g1, none⟩],
        muts := [.delLocal g1,
                 .putLocal r.guid
                   ⟨merge3 l1.record AddressFields.allAbsent r.fields,
                    decide (merge3 l1.record AddressFields.allAbsent r.fields ≠
                      r.fields)⟩,
                 .putMirror r.guid r.fields] } := by
    simp [reconcile, hfl, hfm, hft, hfind, hm1]
  have hpre : applyPlan s (reconcile s (.remote r)) =
      (([Mutation.delLocal g1,
         Mutation.putLocal r.guid
           ⟨merge3 l1.record AddressFields.allAbsent r.fields,
            decide (merge3 l1.record AddressFields.allAbsent r.fields ≠ r.fields)⟩,
         Mutation.putMirror r.guid r.fields].foldl applyMutation s), none) := by
    rw [hrec]
    simp [applyPlan, Snapshot.holds, hfl, hfm, hm1]
  have hm1' : alGet s.mirrorRows g1 = none := hm1
  have ht1' : gMem s.tombstones g1 = false := ht1
  refine ⟨?_, ?_, ?_, ?_, ?_⟩ <;>
    simp [applyIncoming, hpre, List.foldl, applyMutation,
          getLocal, getMirror, getTombstone, alGet_alSet_self,
          alGet_alSet_ne _ _ hg1, alGet_alErase_self, hm1', ht1']

/-- Witness for C5: guid 0 holds an unsynced local row for the same street,
postal code and country that arrive under fresh guid 7; the dedupe merge
leaves exactly one Local row, under guid 7, and purges guid 0. -/
theorem dedupe_merges_unsynced_duplicates_witness :
    getLocal ⟨[(0, ⟨sampleFieldsName, true⟩)], [], [], 1⟩ (7 : Guid) = none ∧
    getMirror ⟨[(0, ⟨sampleFieldsName, true⟩)], [], [], 1⟩ (7 : Guid) = none ∧
    getTombstone ⟨[(0, ⟨sampleFieldsName, true⟩)], [], [], 1⟩ (7 : Guid) = false ∧
    findDupe (⟨[(0, ⟨sampleFieldsName, true⟩)], [], [], 1⟩ :
        StoreState).localRows sampleFields = some (0, ⟨sampleFieldsName, true⟩) ∧
    getMirror ⟨[(0, ⟨sampleFieldsName, true⟩)], [], [], 1⟩ (0 : Guid) = none ∧
    getTombstone ⟨[(0, ⟨sampleFieldsName, true⟩)], [], [], 1⟩ (0 : Guid) = false ∧
    (getLocal (applyIncoming ⟨[(0, ⟨sampleFieldsName, true⟩)], [], [], 1⟩
        (.remote ⟨7, sampleFields⟩)) (7 : Guid) =
      some ⟨merge3 (⟨sampleFieldsName, true⟩ : LocalRow).record
              AddressFields.allAbsent
              (⟨7, sampleFields⟩ : AddressRecord).fields,
            decide (merge3 (⟨sampleFieldsName, true⟩ : LocalRow).record
              AddressFields.allAbsent
              (⟨7, sampleFields⟩ : AddressRecord).fields ≠
                (⟨7, sampleFields⟩ : AddressRecord).fields)⟩ ∧
     getMirror (applyIncoming ⟨[(0, ⟨sampleFieldsName, true⟩)], [], [], 1⟩
        (.remote ⟨7, sampleFields⟩)) (7 : Guid) = some sampleFields ∧
     getLocal (applyIncoming ⟨[(0, ⟨sampleFieldsName, true⟩)], [], [], 1⟩
        (.remote ⟨7, sampleFields⟩)) (0 : Guid) = none ∧
     getMirror (applyIncoming ⟨[(0, ⟨sampleFieldsName, true⟩)], [], [], 1⟩
        (.remote ⟨7, sampleFields⟩)) (0 : Guid) = none ∧
     getTombstone (applyIncoming ⟨[(0, ⟨sampleFieldsName, true⟩)], [], [], 1⟩
        (.remote ⟨7, sampleFields⟩)) (0 : Guid) = false) :=
  ⟨rfl, rfl, rfl, by decide, rfl, rfl,
   dedupe_merges_unsynced_duplicates ⟨[(0, ⟨sampleFieldsName, true⟩)], [], [], 1⟩
     ⟨7, sampleFields⟩ 0 ⟨sampleFieldsName, true⟩ rfl rfl rfl (by decide) rfl rfl⟩

/-- C6.  `delete_local(guid)`: with a Mirror row present it replaces the
Local row by a Tombstone; with no Mirror it purges every row, so the three
lookups all report absent; and on a fully absent guid it is a no-op (and, by
its type, never an error). -/
theorem delete_local_spec (s : StoreState) (g : Guid) :
    ((getMirror s g).isSome →
      getLocal (deleteLocal s g) g = none ∧
      getTombstone (deleteLocal s g) g = true) ∧
    (getMirror s g = none →
      getLocal (deleteLocal s g) g = none ∧
      getMirror (deleteLocal s g) g = none ∧
      getTombstone (deleteLocal s g) g = false) ∧
    (getLocal s g = none ∧ getMirror s g = none ∧ getTombstone s g = false →
      deleteLocal s g = s) := by
  refine ⟨fun hm => ?_, fun hm => ?_, fun ⟨hl, hm, ht⟩ => ?_⟩
  · have hm' : (alGet s.mirrorRows g).isSome = true := hm
    simp [deleteLocal, getLocal, getMirror, getTombstone, hm',
          alGet_alErase_self, gMem_gInsert_self]
  · have hm' : alGet s.mirrorRows g = none := hm
    simp [deleteLocal, getLocal, getMirror, getTombstone, hm',
          alGet_alErase_self, gMem_gErase_self]
  · simp [deleteLocal, hm]
    cases s
    simp
    exact ⟨alErase_of_absent _ _ hl, alErase_of_absent _ _ hm,
           gErase_of_absent _ _ ht⟩

/-- Witness for C6, covering all three branches on concrete stores: deleting
guid 0 with a mirror leaves a tombstone, deleting guid 0 without a mirror
purges everything, and deleting the absent guid 5 changes nothing. -/
theorem delete_local_spec_witness :
    (getLocal (deleteLocal ⟨[(0, ⟨sampleFields, false⟩)], [(0, sampleFields)], [], 1⟩ 0) 0 =
        none ∧
     getTombstone (deleteLocal ⟨[(0, ⟨sampleFields, false⟩)], [(0, sampleFields)], [], 1⟩ 0) 0 =
        true) ∧
    (getLocal (deleteLocal ⟨[(0, ⟨sampleFields, true⟩)], [], [], 1⟩ 0) 0 = none ∧
     getMirror (deleteLocal ⟨[(0, ⟨sampleFields, true⟩)], [], [], 1⟩ 0) 0 = none ∧
     getTombstone (deleteLocal ⟨[(0, ⟨sampleFields, true⟩)], [], [], 1⟩ 0) 0 = false) ∧
    deleteLocal ⟨[(0, ⟨sampleFields, true⟩)], [], [], 1⟩ 5 =
      ⟨[(0, ⟨sampleFields, true⟩)], [], [], 1⟩ :=
  ⟨(delete_local_spec ⟨[(0, ⟨sampleFields, false⟩)], [(0, sampleFields)], [], 1⟩ 0).1
     (by decide),
   (delete_local_spec ⟨[(0, ⟨sampleFields, true⟩)], [], [], 1⟩ 0).2.1 rfl,
   (delete_local_spec ⟨[(0, ⟨sampleFields, true⟩)], [], [], 1⟩ 5).2.2
     ⟨rfl, rfl, rfl⟩⟩

/-- C7.  When the persisted schema version exceeds the highest known
migration, `ensure_current` fails with `SchemaError::TooNew` and returns the
persisted database unchanged — zero mutations, no downgrade. -/
theorem schema_too_new_guard (db : Db) (h : maxKnownVersion < db.version) :
    ensureCurrent db = (db, some .tooNew) := by
  simp [ensureCurrent, h]

/-- Witness for C7: a database persisted at version 3 against a code base
whose migrations stop at version 2. -/
theorem schema_too_new_guard_witness :
    maxKnownVersion < (3 : Nat) ∧
    ensureCurrent ⟨3, StoreState.empty⟩ = (⟨3, StoreState.empty⟩, some .tooNew) :=
  ⟨by decide, schema_too_new_guard ⟨3, StoreState.empty⟩ (by decide)⟩

/-- C8.  If any planning-time snapshot of an update plan no longer holds at
commit time, `apply` aborts the whole plan: the store it returns is exactly
the store it was given — no partial row changes — and the reported error is
`StoreError::Conflict`. -/
theorem apply_plan_conflict_atomic (s : StoreState) (p : UpdatePlan)
    (sn : Snapshot) (hmem : sn ∈ p.preconds)
    (hviol : Snapshot.holds s sn = false) :
    applyPlan s p = (s, some .conflict) := by
  have hall : p.preconds.all (Snapshot.holds s) = false := by
    rcases hres : p.preconds.all (Snapshot.holds s) with _ | _
    · rfl
    · have := (List.all_eq_true.mp hres) sn hmem
      rw [hviol] at this
      cases this
  simp [applyPlan, hall]

/-- Witness for C8: a plan whose snapshot expects a local row for guid 0, run
against the empty store where that row has vanished. -/
theorem apply_plan_conflict_atomic_witness :
    (⟨0, some ⟨sampleFields, true⟩, none⟩ : Snapshot) ∈
      (⟨[⟨0, some ⟨sampleFields, true⟩, none⟩],
        [.putLocal 0 ⟨sampleFields, false⟩]⟩ : UpdatePlan).preconds ∧
    Snapshot.holds StoreState.empty ⟨0, some ⟨sampleFields, true⟩, none⟩ = false ∧
    applyPlan StoreState.empty
      ⟨[⟨0, some ⟨sampleFields, true⟩, none⟩],
       [.putLocal 0 ⟨sampleFields, false⟩]⟩ =
      (StoreState.empty, some .conflict) :=
  ⟨List.mem_singleton.mpr rfl, by decide,
   apply_plan_conflict_atomic StoreState.empty
     ⟨[⟨0, some ⟨sampleFields, true⟩, none⟩],
      [.putLocal 0 ⟨sampleFields, false⟩]⟩
     ⟨0, some ⟨sampleFields, true⟩, none⟩ (List.mem_singleton.mpr rfl)
     (by decide)⟩

/-- C9.  Inserting a record whose mandatory fields are present succeeds,
hands back the freshly allocated guid (not previously in use as a Local row),
and reading that guid back returns the record, marked unsynced, with the new
guid as its key. -/
theorem insert_local_roundtrip (s : StoreState) (f : AddressFields)
    (hv : mandatoryOk f = true) (hfresh : getLocal s s.nextId = none) :
    ∃ g s', insertLocal s f = .ok (g, s') ∧
      getLocal s g = none ∧
      getLocal s' g = some ⟨f, true⟩ := by
  refine ⟨s.nextId,
          { s with localRows := alSet s.localRows s.nextId ⟨f, true⟩,
                   nextId := s.nextId + 1 }, ?_, hfresh, ?_⟩
  · simp [insertLocal, hv]
  · simp [getLocal, alGet_alSet_self]

/-- Witness for C9: inserting the sample record into the empty store yields
guid 0 and reads back unchanged. -/
theorem insert_local_roundtrip_witness :
    mandatoryOk sampleFields = true ∧
    getLocal StoreState.empty StoreState.empty.nextId = none ∧
    (∃ g s', insertLocal StoreState.empty sampleFields = .ok (g, s') ∧
      getLocal StoreState.empty g = none ∧
      getLocal s' g = some ⟨sampleFields, true⟩) :=
  ⟨rfl, rfl, insert_local_roundtrip StoreState.empty sampleFields rfl rfl⟩

/-! ### Helper lemmas for the idempotence analysis -/

theorem applyIncoming_eq_foldl (s : StoreState) (c : IncomingChange)
    (muts : List Mutation) (hrec : reconcile s c = planFor c.guid s muts) :
    applyIncoming s c =
      { muts.foldl applyMutation s with
          nextId := max (muts.foldl applyMutation s).nextId (c.guid + 1) } := by
  simp [applyIncoming, hrec, applyPlan_planFor]

theorem foldl_nil (s : StoreState) :
    ([] : List Mutation).foldl applyMutation s = s := rfl

theorem foldl_delMirror_delTomb (s : StoreState) (g : Guid) :
    ([.delMirror g, .delTomb g] : List Mutation).foldl applyMutation s =
      { s with mirrorRows := alErase s.mirrorRows g,
               tombstones := gErase s.tombstones g } := rfl

theorem foldl_put_put (s : StoreState) (g : Guid) (row : LocalRow)
    (f : AddressFields) :
    ([.putLocal g row, .putMirror g f] : List Mutation).foldl applyMutation s =
      { s with localRows := alSet s.localRows g row,
               mirrorRows := alSet s.mirrorRows g f } := rfl

theorem foldl_putMirror (s : StoreState) (g : Guid) (f : AddressFields) :
    ([.putMirror g f] : List Mutation).foldl applyMutation s =
      { s with mirrorRows := alSet s.mirrorRows g f } := rfl

theorem foldl_dedupe (s : StoreState) (g g1 : Guid) (row : LocalRow)
    (f : AddressFields) :
    ([.delLocal g1, .putLocal g row, .putMirror g f] :
        List Mutation).foldl applyMutation s =
      { s with localRows := alSet (alErase s.localRows g1) g row,
               mirrorRows := alSet s.mirrorRows g f } := rfl

/-- The state applying the dedupe-merge plan (case: candidate never synced)
produces. -/
theorem applyIncoming_dedupe_merge (s : StoreState) (r : AddressRecord)
    (g1 : Guid) (l1 : LocalRow)
    (hfl : getLocal s r.guid = none) (hfm : getMirror s r.guid = none)
    (hft : getTombstone s r.guid = false)
    (hfind : findDupe s.localRows r.fields = some (g1, l1))
    (hm1 : getMirror s g1 = none) :
    applyIncoming s (.remote r) =
      { s with
          localRows := alSet (alErase s.localRows g1) r.guid
            ⟨merge3 l1.record AddressFields.allAbsent r.fields,
             decide (merge3 l1.record AddressFields.allAbsent r.fields ≠ r.fields)⟩,
          mirrorRows := alSet s.mirrorRows r.guid r.fields,
          nextId := max s.nextId (r.guid + 1) } := by
  have hrec : reconcile s (.remote r) =
      { preconds := [⟨r.guid, none, none⟩, ⟨g1, getLocal s g1, none⟩],
        muts := [.delLocal g1,
                 .putLocal r.guid
                   ⟨merge3 l1.record AddressFields.allAbsent r.fields,
                    decide (merge3 l1.record AddressFields.allAbsent r.fields ≠
                      r.fields)⟩,
                 .putMirror r.guid r.fields] } := by
    simp [reconcile, hfl, hfm, hft, hfind, hm1]
  simp [applyIncoming, hrec, applyPlan, Snapshot.holds, hfl, hfm, hm1,
        List.foldl, applyMutation, IncomingChange.guid]

/-- The state applying the dedupe plan (case: candidate already synced, its
Mirror adopts the incoming data) produces. -/
theorem applyIncoming_dedupe_mirror (s : StoreState) (r : AddressRecord)
    (g1 : Guid) (l1 : LocalRow) (m1 : AddressFields)
    (hfl : getLocal s r.guid = none) (hfm : getMirror s r.guid = none)
    (hft : getTombstone s r.guid = false)
    (hfind : findDupe s.localRows r.fields = some (g1, l1))
    (hm1 : getMirror s g1 = some m1) :
    applyIncoming s (.remote r) =
      { s with
          mirrorRows := alSet s.mirrorRows g1 r.fields,
          nextId := max s.nextId (r.guid + 1) } := by
  have hrec : reconcile s (.remote r) =
      { preconds := [⟨r.guid, none, none⟩, ⟨g1, getLocal s g1, some m1⟩],
        muts := [.putMirror g1 r.fields] } := by
    simp [reconcile, hfl, hfm, hft, hfind, hm1]
  simp [applyIncoming, hrec, applyPlan, Snapshot.holds, hfl, hfm, hm1,
        List.foldl, applyMutation, IncomingChange.guid]


/-- Reconciliation never reads the allocation counter. -/
theorem reconcile_withNextId (s : StoreState) (n : Nat) (c : IncomingChange) :
    reconcile (withNextId s n) c = reconcile s c := by
  cases c <;> rfl

theorem planFor_withNextId (g : Guid) (s : StoreState) (n : Nat)
    (muts : List Mutation) :
    planFor g (withNextId s n) muts = planFor g s muts := rfl

/-- An empty plan leaves the lookups of the incoming guid unchanged. -/
theorem lookups_stable_of_nil_plan (t : StoreState) (c : IncomingChange)
    (hrec : reconcile t c = planFor c.guid t []) :
    getLocal (applyIncoming t c) c.guid = getLocal t c.guid ∧
    getMirror (applyIncoming t c) c.guid = getMirror t c.guid := by
  rw [applyIncoming_eq_foldl t c [] hrec]
  exact ⟨rfl, rfl⟩

/-- After a merge-style plan has installed Local `⟨x, x ≠ r⟩` and Mirror `r`,
re-delivering the same remote record leaves both lookups unchanged. -/
theorem lookups_stable_second_delivery (t : StoreState) (r : AddressRecord)
    (x : AddressFields)
    (hL : getLocal t r.guid = some ⟨x, decide (x ≠ r.fields)⟩)
    (hM : getMirror t r.guid = some r.fields) :
    getLocal (applyIncoming t (.remote r)) r.guid = getLocal t r.guid ∧
    getMirror (applyIncoming t (.remote r)) r.guid = getMirror t r.guid := by
  by_cases hx : x = r.fields
  · have hL2 : getLocal t r.guid = some ⟨r.fields, false⟩ := by
      rw [hL, hx]; simp
    have hrec : reconcile t (.remote r) =
        planFor r.guid t [.putLocal r.guid ⟨r.fields, false⟩,
                          .putMirror r.guid r.fields] := by
      simp [reconcile, hL2, hM]
    have hs2 : applyIncoming t (.remote r) =
        putBothSt t r.guid ⟨r.fields, false⟩ r.fields
          (max t.nextId (r.guid + 1)) :=
      applyIncoming_eq_foldl t (.remote r) _ hrec
    rw [hs2, hL2, hM]
    exact ⟨alGet_alSet_self _ _ _, alGet_alSet_self _ _ _⟩
  · have hrec : reconcile t (.remote r) = planFor r.guid t [] := by
      simp [reconcile, hL, hM, hx]
    exact lookups_stable_of_nil_plan t (.remote r) hrec

/-- First application takes an empty plan: a second delivery changes nothing
either. -/
theorem idem_branch_nil (s : StoreState) (c : IncomingChange)
    (hrec : reconcile s c = planFor c.guid s []) :
    getLocal (applyIncoming (applyIncoming s c) c) c.guid =
      getLocal (applyIncoming s c) c.guid ∧
    getMirror (applyIncoming (applyIncoming s c) c) c.guid =
      getMirror (applyIncoming s c) c.guid := by
  have hs1 : applyIncoming s c = withNextId s (max s.nextId (c.guid + 1)) :=
    applyIncoming_eq_foldl s c [] hrec
  rw [hs1]
  refine lookups_stable_of_nil_plan _ c ?_
  rw [reconcile_withNextId]
  exact hrec.trans (planFor_withNextId c.guid s _ []).symm

/-- First application installs Local `⟨x, b⟩` (with `b` the merge's
still-unsynced flag) and Mirror `r`: the second application is a no-op on
the lookups. -/
theorem idem_branch_put (s : StoreState) (r : AddressRecord)
    (x : AddressFields) (b : Bool) (hb : b = decide (x ≠ r.fields))
    (hrec : reconcile s (.remote r) =
      planFor r.guid s [.putLocal r.guid ⟨x, b⟩, .putMirror r.guid r.fields]) :
    getLocal (applyIncoming (applyIncoming s (.remote r)) (.remote r)) r.guid =
      getLocal (applyIncoming s (.remote r)) r.guid ∧
    getMirror (applyIncoming (applyIncoming s (.remote r)) (.remote r)) r.guid =
      getMirror (applyIncoming s (.remote r)) r.guid := by
  subst hb
  have hs1 : applyIncoming s (.remote r) =
      putBothSt s r.guid ⟨x, decide (x ≠ r.fields)⟩ r.fields
        (max s.nextId (r.guid + 1)) :=
    applyIncoming_eq_foldl s (.remote r) _ hrec
  rw [hs1]
  refine lookups_stable_second_delivery _ r x ?_ ?_
  · exact alGet_alSet_self _ _ _
  · exact alGet_alSet_self _ _ _

/-- C3.  Applying the same incoming change twice in sequence yields, for the
affected guid, the same final Local and Mirror state as applying it once:
re-delivery of an already-applied change is a no-op. -/
theorem apply_incoming_idempotent (s : StoreState) (c : IncomingChange) :
    getLocal (applyIncoming (applyIncoming s c) c) c.guid =
      getLocal (applyIncoming s c) c.guid ∧
    getMirror (applyIncoming (applyIncoming s c) c) c.guid =
      getMirror (applyIncoming s c) c.guid := by
  cases c with
  | remoteTombstone g =>
    simp only [IncomingChange.guid]
    rcases hl : getLocal s g with _ | l
    · rcases hm : getMirror s g with _ | m
      · -- nothing to delete: empty plan, stable
        exact idem_branch_nil s (.remoteTombstone g)
          (by simp [reconcile, hl, hm, IncomingChange.guid])
      · -- already deleted locally: purge mirror and tombstone
        have hrec : reconcile s (.remoteTombstone g) =
            planFor g s [.delMirror g, .delTomb g] := by
          simp [reconcile, hl, hm]
        have hs1 : applyIncoming s (.remoteTombstone g) =
            purgedMirrorTomb s g (max s.nextId (g + 1)) :=
          applyIncoming_eq_foldl s (.remoteTombstone g) _ hrec
        rw [hs1]
        refine lookups_stable_of_nil_plan _ (.remoteTombstone g) ?_
        have hL : getLocal (purgedMirrorTomb s g (max s.nextId (g + 1))) g =
            none := hl
        have hM : getMirror (purgedMirrorTomb s g (max s.nextId (g + 1))) g =
            none := alGet_alErase_self _ _
        simp [reconcile, hL, hM, IncomingChange.guid]
    · by_cases hu : l.unsynced = true
      · -- conflict: keep local, drop mirror; a second delivery repeats it
        have hrec : reconcile s (.remoteTombstone g) =
            planFor g s [.delMirror g, .delTomb g] := by
          simp [reconcile, hl, hu]
        have hs1 : applyIncoming s (.remoteTombstone g) =
            purgedMirrorTomb s g (max s.nextId (g + 1)) :=
          applyIncoming_eq_foldl s (.remoteTombstone g) _ hrec
        rw [hs1]
        have hL : getLocal (purgedMirrorTomb s g (max s.nextId (g + 1))) g =
            some l := hl
        have hrec2 : reconcile (purgedMirrorTomb s g (max s.nextId (g + 1)))
            (.remoteTombstone g) =
            planFor g (purgedMirrorTomb s g (max s.nextId (g + 1)))
              [.delMirror g, .delTomb g] := by
          simp [reconcile, hL, hu]
        rw [applyIncoming_eq_foldl _ (.remoteTombstone g) _ hrec2]
        constructor
        · rfl
        · show alGet (alErase (alErase s.mirrorRows g) g) g =
            alGet (alErase s.mirrorRows g) g
          rw [alGet_alErase_self, alGet_alErase_self]
      · -- synced local and a remote tombstone: outside the decision table,
        -- modelled as a no-op
        have hu2 : l.unsynced = false := by
          cases hv : l.unsynced
          · rfl
          · exact absurd hv hu
        exact idem_branch_nil s (.remoteTombstone g)
          (by simp [reconcile, hl, hu2, IncomingChange.guid])
  | remote r =>
    simp only [IncomingChange.guid]
    rcases hl : getLocal s r.guid with _ | l
    · rcases hm : getMirror s r.guid with _ | m
      · rcases ht : getTombstone s r.guid with _ | _
        · -- brand-new record: dedupe scan
          rcases hfind : findDupe s.localRows r.fields with _ | ⟨g1, l1⟩
          · -- fresh insert from the server
            exact idem_branch_put s r r.fields false (by simp)
              (by simp [reconcile, hl, hm, ht, hfind, IncomingChange.guid])
          · rcases hm1 : getMirror s g1 with _ | m1
            · -- dedupe, candidate never synced: merge under the incoming guid
              have hs1 : applyIncoming s (.remote r) =
                  dedupeMergeSt s r.guid g1
                    ⟨merge3 l1.record AddressFields.allAbsent r.fields,
                     decide (merge3 l1.record AddressFields.allAbsent r.fields ≠
                       r.fields)⟩
                    r.fields (max s.nextId (r.guid + 1)) :=
                applyIncoming_dedupe_merge s r g1 l1 hl hm ht hfind hm1
              rw [hs1]
              refine lookups_stable_second_delivery _ r
                (merge3 l1.record AddressFields.allAbsent r.fields) ?_ ?_
              · exact alGet_alSet_self _ _ _
              · exact alGet_alSet_self _ _ _
            · -- dedupe, candidate already synced: only its mirror adopts r
              have hg1 : g1 ≠ r.guid := by
                intro hc
                have hsome := findDupe_isSome_getLocal hfind
                rw [hc, hl] at hsome
                simp at hsome
              have hne : (r.guid : Guid) ≠ g1 := fun hc => hg1 hc.symm
              have hs1 : applyIncoming s (.remote r) =
                  putMirrorSt s g1 r.fields (max s.nextId (r.guid + 1)) :=
                applyIncoming_dedupe_mirror s r g1 l1 m1 hl hm ht hfind hm1
              rw [hs1]
              have hL : getLocal (putMirrorSt s g1 r.fields
                  (max s.nextId (r.guid + 1))) r.guid = none := hl
              have hM : getMirror (putMirrorSt s g1 r.fields
                  (max s.nextId (r.guid + 1))) r.guid = none := by
                show alGet (alSet s.mirrorRows g1 r.fields) r.guid = none
                rw [alGet_alSet_ne _ _ hne]
                exact hm
              have hT : getTombstone (putMirrorSt s g1 r.fields
                  (max s.nextId (r.guid + 1))) r.guid = false := ht
              have hfind2 : findDupe (putMirrorSt s g1 r.fields
                  (max s.nextId (r.guid + 1))).localRows r.fields =
                  some (g1, l1) := hfind
              have hm2 : getMirror (putMirrorSt s g1 r.fields
                  (max s.nextId (r.guid + 1))) g1 = some r.fields :=
                alGet_alSet_self _ _ _
              rw [applyIncoming_dedupe_mirror _ r g1 l1 r.fields
                hL hM hT hfind2 hm2]
              constructor
              · rfl
              · show alGet (alSet (alSet s.mirrorRows g1 r.fields) g1 r.fields)
                    r.guid =
                  alGet (alSet s.mirrorRows g1 r.fields) r.guid
                rw [alGet_alSet_ne _ _ hne, alGet_alSet_ne _ _ hne]
        · -- tombstoned guid: resurrection suppressed, empty plan
          exact idem_branch_nil s (.remote r)
            (by simp [reconcile, hl, hm, ht, IncomingChange.guid])
      · by_cases hrm : r.fields = m
        · -- mirror already equals the incoming record: no listed row, no-op
          exact idem_branch_nil s (.remote r)
            (by simp [reconcile, hl, hm, hrm, IncomingChange.guid])
        · -- deleted locally, remote changed: adopt into the mirror only
          have hrec : reconcile s (.remote r) =
              planFor r.guid s [.putMirror r.guid r.fields] := by
            simp [reconcile, hl, hm, hrm]
          have hs1 : applyIncoming s (.remote r) =
              putMirrorSt s r.guid r.fields (max s.nextId (r.guid + 1)) :=
            applyIncoming_eq_foldl s (.remote r) _ hrec
          rw [hs1]
          refine lookups_stable_of_nil_plan _ (.remote r) ?_
          have hL : getLocal (putMirrorSt s r.guid r.fields
              (max s.nextId (r.guid + 1))) r.guid = none := hl
          have hM : getMirror (putMirrorSt s r.guid r.fields
              (max s.nextId (r.guid + 1))) r.guid = some r.fields :=
            alGet_alSet_self _ _ _
          simp [reconcile, hL, hM, IncomingChange.guid]
    · by_cases hu : l.unsynced = true
      · rcases hm : getMirror s r.guid with _ | m
        · -- unsynced local, no mirror: merge against the absent baseline
          exact idem_branch_put s r
            (merge3 l.record AddressFields.allAbsent r.fields) _ rfl
            (by simp [reconcile, hl, hm, hu, IncomingChange.guid])
        · by_cases hrm : r.fields = m
          · -- remote unchanged since the mirror: no listed row, no-op
            exact idem_branch_nil s (.remote r)
              (by simp [reconcile, hl, hm, hu, hrm, IncomingChange.guid])
          · -- genuine three-way merge
            exact idem_branch_put s r (merge3 l.record m r.fields) _ rfl
              (by simp [reconcile, hl, hm, hu, hrm, IncomingChange.guid])
      · have hu2 : l.unsynced = false := by
          cases hv : l.unsynced
          · rfl
          · exact absurd hv hu
        rcases hm : getMirror s r.guid with _ | m
        · -- synced local without a mirror: outside the table, no-op
          exact idem_branch_nil s (.remote r)
            (by simp [reconcile, hl, hm, hu2, IncomingChange.guid])
        · -- no pending edits: adopt remote verbatim; stable on re-delivery
          exact idem_branch_put s r r.fields false (by simp)
            (by simp [reconcile, hl, hm, hu2, IncomingChange.guid])

/-! ### Reachable store states and the per-guid row invariant -/

/-- Modelled from the spec: the mutating entry points of the component — the
CRUD operations of the Store plus a full incoming-change application (the
engine computes the plan and the executor applies it, per the data-flow of
the design).  `Reachable` holds of every state some sequence of these
operations can produce from a fresh store. -/
inductive Reachable : StoreState → Prop where
  | empty : Reachable StoreState.empty
  | insert (s : StoreState) (f : AddressFields) (g : Guid) (s' : StoreState) :
      Reachable s → insertLocal s f = .ok (g, s') → Reachable s'
  | update (s : StoreState) (g : Guid) (f : AddressFields) (s' : StoreState) :
      Reachable s → updateLocal s g f = .ok s' → Reachable s'
  | delete (s : StoreState) (g : Guid) :
      Reachable s → Reachable (deleteLocal s g)
  | incoming (s : StoreState) (c : IncomingChange) :
      Reachable s → Reachable (applyIncoming s c)

/-- The storage invariant: per guid at most one Local row, at most one
Mirror row and at most one Tombstone; a Local row and a Tombstone never
coexist; and every guid present anywhere lies below the allocation
counter (guids are never reused). -/
def Inv (s : StoreState) : Prop :=
  (∀ g, s.localRows.countP (fun p => decide (p.1 = g)) ≤ 1) ∧
  (∀ g, s.mirrorRows.countP (fun p => decide (p.1 = g)) ≤ 1) ∧
  (∀ g, s.tombstones.countP (fun x => decide (x = g)) ≤ 1) ∧
  (∀ g, (getLocal s g).isSome → getTombstone s g = false) ∧
  (∀ g, (getLocal s g).isSome → g < s.nextId) ∧
  (∀ g, (getMirror s g).isSome → g < s.nextId) ∧
  (∀ g, getTombstone s g = true → g < s.nextId)

theorem countP_alErase_le (l : List (Guid × α)) (g : Guid)
    (p : Guid × α → Bool) :
    (alErase l g).countP p ≤ l.countP p := by
  induction l with
  | nil => exact Nat.le_refl _
  | cons q t ih =>
    by_cases hq : q.1 = g
    · simp only [alErase, if_pos hq, List.countP_cons]
      exact Nat.le_trans ih (Nat.le_add_right _ _)
    · simp only [alErase, if_neg hq, List.countP_cons]
      exact Nat.add_le_add_right ih _

theorem countP_alErase_self (l : List (Guid × α)) (g : Guid) :
    (alErase l g).countP (fun p => decide (p.1 = g)) = 0 := by
  induction l with
  | nil => rfl
  | cons q t ih =>
    by_cases hq : q.1 = g
    · simp only [alErase, if_pos hq]
      exact ih
    · rw [show alErase (q :: t) g = q :: alErase t g from by simp [alErase, hq]]
      rw [List.countP_cons]
      simp [hq, ih]

theorem countP_alSet_le_one (l : List (Guid × α)) (g g' : Guid) (v : α)
    (h : l.countP (fun p => decide (p.1 = g')) ≤ 1) :
    (alSet l g v).countP (fun p => decide (p.1 = g')) ≤ 1 := by
  by_cases hg : g = g'
  · subst hg
    simp only [alSet, List.countP_cons, countP_alErase_self]
    simp
  · simp only [alSet, List.countP_cons, hg]
    simpa using Nat.le_trans (countP_alErase_le l g _) h

theorem countP_gErase_le (l : List Guid) (g : Guid) (p : Guid → Bool) :
    (gErase l g).countP p ≤ l.countP p := by
  induction l with
  | nil => exact Nat.le_refl _
  | cons x t ih =>
    by_cases hx : x = g
    · simp only [gErase, if_pos hx, List.countP_cons]
      exact Nat.le_trans ih (Nat.le_add_right _ _)
    · simp only [gErase, if_neg hx, List.countP_cons]
      exact Nat.add_le_add_right ih _

theorem countP_gErase_self (l : List Guid) (g : Guid) :
    (gErase l g).countP (fun x => decide (x = g)) = 0 := by
  induction l with
  | nil => rfl
  | cons x t ih =>
    by_cases hx : x = g
    · simp only [gErase, if_pos hx]
      exact ih
    · rw [show gErase (x :: t) g = x :: gErase t g from by simp [gErase, hx]]
      rw [List.countP_cons]
      simp [hx, ih]

theorem countP_gInsert_le_one (l : List Guid) (g g' : Guid)
    (h : l.countP (fun x => decide (x = g')) ≤ 1) :
    (gInsert l g).countP (fun x => decide (x = g')) ≤ 1 := by
  by_cases hg : g = g'
  · subst hg
    simp only [gInsert, List.countP_cons, countP_gErase_self]
    simp
  · simp only [gInsert, List.countP_cons, hg]
    simpa using Nat.le_trans (countP_gErase_le l g _) h

theorem Inv_withNextId (s : StoreState) (n : Nat) (h : Inv s)
    (hn : s.nextId ≤ n) : Inv (withNextId s n) := by
  obtain ⟨h1, h2, h3, h4, h5, h6, h7⟩ := h
  exact ⟨h1, h2, h3, h4,
    fun g hg => Nat.lt_of_lt_of_le (h5 g hg) hn,
    fun g hg => Nat.lt_of_lt_of_le (h6 g hg) hn,
    fun g hg => Nat.lt_of_lt_of_le (h7 g hg) hn⟩

theorem Inv_purgedMirrorTomb (s : StoreState) (g : Guid) (n : Nat)
    (h : Inv s) (hn : s.nextId ≤ n) : Inv (purgedMirrorTomb s g n) := by
  obtain ⟨h1, h2, h3, h4, h5, h6, h7⟩ := h
  refine ⟨h1, ?_, ?_, ?_, ?_, ?_, ?_⟩
  · exact fun g0 => Nat.le_trans (countP_alErase_le _ _ _) (h2 g0)
  · exact fun g0 => Nat.le_trans (countP_gErase_le _ _ _) (h3 g0)
  · intro g0 hg0
    by_cases he : g0 = g
    · subst he
      exact gMem_gErase_self _ _
    · show gMem (gErase s.tombstones g) g0 = false
      rw [gMem_gErase_ne _ he]
      exact h4 g0 hg0
  · exact fun g0 hg0 => Nat.lt_of_lt_of_le (h5 g0 hg0) hn
  · intro g0 hg0
    by_cases he : g0 = g
    · subst he
      rw [show getMirror (purgedMirrorTomb s g0 n) g0 =
        alGet (alErase s.mirrorRows g0) g0 from rfl, alGet_alErase_self] at hg0
      simp at hg0
    · rw [show getMirror (purgedMirrorTomb s g n) g0 =
        alGet (alErase s.mirrorRows g) g0 from rfl, alGet_alErase_ne _ he] at hg0
      exact Nat.lt_of_lt_of_le (h6 g0 hg0) hn
  · intro g0 hg0
    by_cases he : g0 = g
    · subst he
      rw [show getTombstone (purgedMirrorTomb s g0 n) g0 =
        gMem (gErase s.tombstones g0) g0 from rfl, gMem_gErase_self] at hg0
      cases hg0
    · rw [show getTombstone (purgedMirrorTomb s g n) g0 =
        gMem (gErase s.tombstones g) g0 from rfl, gMem_gErase_ne _ he] at hg0
      exact Nat.lt_of_lt_of_le (h7 g0 hg0) hn

theorem Inv_putBothSt (s : StoreState) (g : Guid) (row : LocalRow)
    (f : AddressFields) (n : Nat) (h : Inv s)
    (ht : getTombstone s g = false) (hn : s.nextId ≤ n) (hg : g < n) :
    Inv (putBothSt s g row f n) := by
  obtain ⟨h1, h2, h3, h4, h5, h6, h7⟩ := h
  refine ⟨?_, ?_, h3, ?_, ?_, ?_, ?_⟩
  · exact fun g0 => countP_alSet_le_one _ _ _ _ (h1 g0)
  · exact fun g0 => countP_alSet_le_one _ _ _ _ (h2 g0)
  · intro g0 hg0
    by_cases he : g0 = g
    · subst he
      exact ht
    · rw [show getLocal (putBothSt s g row f n) g0 =
        alGet (alSet s.localRows g row) g0 from rfl,
        alGet_alSet_ne _ _ he] at hg0
      exact h4 g0 hg0
  · intro g0 hg0
    by_cases he : g0 = g
    · subst he
      exact hg
    · rw [show getLocal (putBothSt s g row f n) g0 =
        alGet (alSet s.localRows g row) g0 from rfl,
        alGet_alSet_ne _ _ he] at hg0
      exact Nat.lt_of_lt_of_le (h5 g0 hg0) hn
  · intro g0 hg0
    by_cases he : g0 = g
    · subst he
      exact hg
    · rw [show getMirror (putBothSt s g row f n) g0 =
        alGet (alSet s.mirrorRows g f) g0 from rfl,
        alGet_alSet_ne _ _ he] at hg0
      exact Nat.lt_of_lt_of_le (h6 g0 hg0) hn
  · exact fun g0 hg0 => Nat.lt_of_lt_of_le (h7 g0 hg0) hn

theorem Inv_putMirrorSt (s : StoreState) (g : Guid) (f : AddressFields)
    (n : Nat) (h : Inv s) (hn : s.nextId ≤ n) (hg : g < n) :
    Inv (putMirrorSt s g f n) := by
  obtain ⟨h1, h2, h3, h4, h5, h6, h7⟩ := h
  refine ⟨h1, ?_, h3, h4, ?_, ?_, ?_⟩
  · exact fun g0 => countP_alSet_le_one _ _ _ _ (h2 g0)
  · exact fun g0 hg0 => Nat.lt_of_lt_of_le (h5 g0 hg0) hn
  · intro g0 hg0
    by_cases he : g0 = g
    · subst he
      exact hg
    · rw [show getMirror (putMirrorSt s g f n) g0 =
        alGet (alSet s.mirrorRows g f) g0 from rfl,
        alGet_alSet_ne _ _ he] at hg0
      exact Nat.lt_of_lt_of_le (h6 g0 hg0) hn
  · exact fun g0 hg0 => Nat.lt_of_lt_of_le (h7 g0 hg0) hn

theorem Inv_dedupeMergeSt (s : StoreState) (g g1 : Guid) (row : LocalRow)
    (f : AddressFields) (n : Nat) (h : Inv s)
    (ht : getTombstone s g = false) (hn : s.nextId ≤ n) (hg : g < n) :
    Inv (dedupeMergeSt s g g1 row f n) := by
  obtain ⟨h1, h2, h3, h4, h5, h6, h7⟩ := h
  refine ⟨?_, ?_, h3, ?_, ?_, ?_, ?_⟩
  · exact fun g0 => countP_alSet_le_one _ _ _ _
      (Nat.le_trans (countP_alErase_le _ _ _) (h1 g0))
  · exact fun g0 => countP_alSet_le_one _ _ _ _ (h2 g0)
  · intro g0 hg0
    by_cases he : g0 = g
    · subst he
      exact ht
    · rw [show getLocal (dedupeMergeSt s g g1 row f n) g0 =
        alGet (alSet (alErase s.localRows g1) g row) g0 from rfl,
        alGet_alSet_ne _ _ he] at hg0
      by_cases he1 : g0 = g1
      · subst he1
        rw [alGet_alErase_self] at hg0
        simp at hg0
      · rw [alGet_alErase_ne _ he1] at hg0
        exact h4 g0 hg0
  · intro g0 hg0
    by_cases he : g0 = g
    · subst he
      exact hg
    · rw [show getLocal (dedupeMergeSt s g g1 row f n) g0 =
        alGet (alSet (alErase s.localRows g1) g row) g0 from rfl,
        alGet_alSet_ne _ _ he] at hg0
      by_cases he1 : g0 = g1
      · subst he1
        rw [alGet_alErase_self] at hg0
        simp at hg0
      · rw [alGet_alErase_ne _ he1] at hg0
        exact Nat.lt_of_lt_of_le (h5 g0 hg0) hn
  · intro g0 hg0
    by_cases he : g0 = g
    · subst he
      exact hg
    · rw [show getMirror (dedupeMergeSt s g g1 row f n) g0 =
        alGet (alSet s.mirrorRows g f) g0 from rfl,
        alGet_alSet_ne _ _ he] at hg0
      exact Nat.lt_of_lt_of_le (h6 g0 hg0) hn
  · exact fun g0 hg0 => Nat.lt_of_lt_of_le (h7 g0 hg0) hn

theorem Inv_insertLocal (s : StoreState) (f : AddressFields) (g : Guid)
    (s' : StoreState) (h : Inv s) (hok : insertLocal s f = .ok (g, s')) :
    Inv s' := by
  obtain ⟨h1, h2, h3, h4, h5, h6, h7⟩ := h
  unfold insertLocal at hok
  by_cases hv : mandatoryOk f = true
  · rw [if_pos hv] at hok
    injection hok with hpair
    injection hpair with hg hs2
    subst hs2
    show Inv (insertedSt s f)
    have ht : getTombstone s s.nextId = false := by
      cases hcase : getTombstone s s.nextId
      · rfl
      · exact absurd (h7 _ hcase) (Nat.lt_irrefl _)
    refine ⟨?_, h2, h3, ?_, ?_, ?_, ?_⟩
    · exact fun g0 => countP_alSet_le_one _ _ _ _ (h1 g0)
    · intro g0 hg0
      by_cases he : g0 = s.nextId
      · subst he
        exact ht
      · rw [show getLocal (insertedSt s f) g0 =
          alGet (alSet s.localRows s.nextId ⟨f, true⟩) g0 from rfl,
          alGet_alSet_ne _ _ he] at hg0
        exact h4 g0 hg0
    · intro g0 hg0
      by_cases he : g0 = s.nextId
      · subst he
        exact Nat.lt_succ_self _
      · rw [show getLocal (insertedSt s f) g0 =
          alGet (alSet s.localRows s.nextId ⟨f, true⟩) g0 from rfl,
          alGet_alSet_ne _ _ he] at hg0
        exact Nat.lt_succ_of_lt (h5 g0 hg0)
    · exact fun g0 hg0 => Nat.lt_succ_of_lt (h6 g0 hg0)
    · exact fun g0 hg0 => Nat.lt_succ_of_lt (h7 g0 hg0)
  · rw [if_neg hv] at hok
    cases hok

theorem Inv_updateLocal (s : StoreState) (g : Guid) (f : AddressFields)
    (s' : StoreState) (h : Inv s) (hok : updateLocal s g f = .ok s') :
    Inv s' := by
  obtain ⟨h1, h2, h3, h4, h5, h6, h7⟩ := h
  unfold updateLocal at hok
  rcases hl : getLocal s g with _ | l
  · rw [hl] at hok
    cases hok
  · rw [hl] at hok
    injection hok with hs2
    subst hs2
    show Inv (updatedSt s g f)
    have hsome : (getLocal s g).isSome := by rw [hl]; rfl
    refine ⟨?_, h2, h3, ?_, ?_, h6, h7⟩
    · exact fun g0 => countP_alSet_le_one _ _ _ _ (h1 g0)
    · intro g0 hg0
      by_cases he : g0 = g
      · subst he
        exact h4 g0 hsome
      · rw [show getLocal (updatedSt s g f) g0 =
          alGet (alSet s.localRows g ⟨f, true⟩) g0 from rfl,
          alGet_alSet_ne _ _ he] at hg0
        exact h4 g0 hg0
    · intro g0 hg0
      by_cases he : g0 = g
      · subst he
        exact h5 g0 hsome
      · rw [show getLocal (updatedSt s g f) g0 =
          alGet (alSet s.localRows g ⟨f, true⟩) g0 from rfl,
          alGet_alSet_ne _ _ he] at hg0
        exact h5 g0 hg0

theorem Inv_deleteLocal (s : StoreState) (g : Guid) (h : Inv s) :
    Inv (deleteLocal s g) := by
  obtain ⟨h1, h2, h3, h4, h5, h6, h7⟩ := h
  by_cases hm : (getMirror s g).isSome = true
  · have hd : deleteLocal s g = tombstonedSt s g := by
      unfold deleteLocal
      rw [if_pos hm]
      rfl
    rw [hd]
    refine ⟨?_, h2, ?_, ?_, ?_, h6, ?_⟩
    · exact fun g0 => Nat.le_trans (countP_alErase_le _ _ _) (h1 g0)
    · exact fun g0 => countP_gInsert_le_one _ _ _ (h3 g0)
    · intro g0 hg0
      by_cases he : g0 = g
      · subst he
        rw [show getLocal (tombstonedSt s g0) g0 =
          alGet (alErase s.localRows g0) g0 from rfl,
          alGet_alErase_self] at hg0
        simp at hg0
      · rw [show getLocal (tombstonedSt s g) g0 =
          alGet (alErase s.localRows g) g0 from rfl,
          alGet_alErase_ne _ he] at hg0
        show gMem (gInsert s.tombstones g) g0 = false
        rw [gMem_gInsert_ne _ he]
        exact h4 g0 hg0
    · intro g0 hg0
      by_cases he : g0 = g
      · subst he
        rw [show getLocal (tombstonedSt s g0) g0 =
          alGet (alErase s.localRows g0) g0 from rfl,
          alGet_alErase_self] at hg0
        simp at hg0
      · rw [show getLocal (tombstonedSt s g) g0 =
          alGet (alErase s.localRows g) g0 from rfl,
          alGet_alErase_ne _ he] at hg0
        exact h5 g0 hg0
    · intro g0 hg0
      by_cases he : g0 = g
      · subst he
        exact h6 g0 hm
      · rw [show getTombstone (tombstonedSt s g) g0 =
          gMem (gInsert s.tombstones g) g0 from rfl,
          gMem_gInsert_ne _ he] at hg0
        exact h7 g0 hg0
  · have hd : deleteLocal s g = purgedAllSt s g := by
      unfold deleteLocal
      rw [if_neg hm]
      rfl
    rw [hd]
    refine ⟨?_, ?_, ?_, ?_, ?_, ?_, ?_⟩
    · exact fun g0 => Nat.le_trans (countP_alErase_le _ _ _) (h1 g0)
    · exact fun g0 => Nat.le_trans (countP_alErase_le _ _ _) (h2 g0)
    · exact fun g0 => Nat.le_trans (countP_gErase_le _ _ _) (h3 g0)
    · intro g0 hg0
      by_cases he : g0 = g
      · subst he
        exact gMem_gErase_self _ _
      · show gMem (gErase s.tombstones g) g0 = false
        rw [gMem_gErase_ne _ he]
        rw [show getLocal (purgedAllSt s g) g0 =
          alGet (alErase s.localRows g) g0 from rfl,
          alGet_alErase_ne _ he] at hg0
        exact h4 g0 hg0
    · intro g0 hg0
      by_cases he : g0 = g
      · subst he
        rw [show getLocal (purgedAllSt s g0) g0 =
          alGet (alErase s.localRows g0) g0 from rfl,
          alGet_alErase_self] at hg0
        simp at hg0
      · rw [show getLocal (purgedAllSt s g) g0 =
          alGet (alErase s.localRows g) g0 from rfl,
          alGet_alErase_ne _ he] at hg0
        exact h5 g0 hg0
    · intro g0 hg0
      by_cases he : g0 = g
      · subst he
        rw [show getMirror (purgedAllSt s g0) g0 =
          alGet (alErase s.mirrorRows g0) g0 from rfl,
          alGet_alErase_self] at hg0
        simp at hg0
      · rw [show getMirror (purgedAllSt s g) g0 =
          alGet (alErase s.mirrorRows g) g0 from rfl,
          alGet_alErase_ne _ he] at hg0
        exact h6 g0 hg0
    · intro g0 hg0
      by_cases he : g0 = g
      · subst he
        rw [show getTombstone (purgedAllSt s g0) g0 =
          gMem (gErase s.tombstones g0) g0 from rfl,
          gMem_gErase_self] at hg0
        cases hg0
      · rw [show getTombstone (purgedAllSt s g) g0 =
          gMem (gErase s.tombstones g) g0 from rfl,
          gMem_gErase_ne _ he] at hg0
        exact h7 g0 hg0

theorem Inv_applyIncoming (s : StoreState) (c : IncomingChange) (h : Inv s) :
    Inv (applyIncoming s c) := by
  cases c with
  | remoteTombstone g =>
    rcases hl : getLocal s g with _ | l
    · rcases hm : getMirror s g with _ | m
      · have hrec : reconcile s (.remoteTombstone g) =
            planFor g s [] := by
          simp [reconcile, hl, hm]
        rw [show applyIncoming s (.remoteTombstone g) =
          withNextId s (max s.nextId (g + 1)) from
          applyIncoming_eq_foldl s _ [] hrec]
        exact Inv_withNextId s _ h (Nat.le_max_left _ _)
      · have hrec : reconcile s (.remoteTombstone g) =
            planFor g s [.delMirror g, .delTomb g] := by
          simp [reconcile, hl, hm]
        rw [show applyIncoming s (.remoteTombstone g) =
          purgedMirrorTomb s g (max s.nextId (g + 1)) from
          applyIncoming_eq_foldl s _ _ hrec]
        exact Inv_purgedMirrorTomb s g _ h (Nat.le_max_left _ _)
    · by_cases hu : l.unsynced = true
      · have hrec : reconcile s (.remoteTombstone g) =
            planFor g s [.delMirror g, .delTomb g] := by
          simp [reconcile, hl, hu]
        rw [show applyIncoming s (.remoteTombstone g) =
          purgedMirrorTomb s g (max s.nextId (g + 1)) from
          applyIncoming_eq_foldl s _ _ hrec]
        exact Inv_purgedMirrorTomb s g _ h (Nat.le_max_left _ _)
      · have hu2 : l.unsynced = false := by
          cases hv : l.unsynced
          · rfl
          · exact absurd hv hu
        have hrec : reconcile s (.remoteTombstone g) =
            planFor g s [] := by
          simp [reconcile, hl, hu2]
        rw [show applyIncoming s (.remoteTombstone g) =
          withNextId s (max s.nextId (g + 1)) from
          applyIncoming_eq_foldl s _ [] hrec]
        exact Inv_withNextId s _ h (Nat.le_max_left _ _)
  | remote r =>
    have hgub : r.guid < max s.nextId (r.guid + 1) :=
      Nat.lt_of_lt_of_le (Nat.lt_succ_self _) (Nat.le_max_right _ _)
    rcases hl : getLocal s r.guid with _ | l
    · rcases hm : getMirror s r.guid with _ | m
      · rcases ht : getTombstone s r.guid with _ | _
        · rcases hfind : findDupe s.localRows r.fields with _ | ⟨g1, l1⟩
          · have hrec : reconcile s (.remote r) =
                planFor r.guid s [.putLocal r.guid ⟨r.fields, false⟩,
                                  .putMirror r.guid r.fields] := by
              simp [reconcile, hl, hm, ht, hfind]
            rw [show applyIncoming s (.remote r) =
              putBothSt s r.guid ⟨r.fields, false⟩ r.fields
                (max s.nextId (r.guid + 1)) from
              applyIncoming_eq_foldl s _ _ hrec]
            exact Inv_putBothSt s _ _ _ _ h ht (Nat.le_max_left _ _) hgub
          · rcases hm1 : getMirror s g1 with _ | m1
            · rw [applyIncoming_dedupe_merge s r g1 l1 hl hm ht hfind hm1]
              exact Inv_dedupeMergeSt s _ _ _ _ _ h ht
                (Nat.le_max_left _ _) hgub
            · have hloc1 : (getLocal s g1).isSome :=
                findDupe_isSome_getLocal hfind
              rw [applyIncoming_dedupe_mirror s r g1 l1 m1 hl hm ht hfind hm1]
              exact Inv_putMirrorSt s _ _ _ h (Nat.le_max_left _ _)
                (Nat.lt_of_lt_of_le (h.2.2.2.2.1 g1 hloc1) (Nat.le_max_left _ _))
        · have hrec : reconcile s (.remote r) = planFor r.guid s [] := by
            simp [reconcile, hl, hm, ht]
          rw [show applyIncoming s (.remote r) =
            withNextId s (max s.nextId (r.guid + 1)) from
            applyIncoming_eq_foldl s _ [] hrec]
          exact Inv_withNextId s _ h (Nat.le_max_left _ _)
      · by_cases hrm : r.fields = m
        · have hrec : reconcile s (.remote r) = planFor r.guid s [] := by
            simp [reconcile, hl, hm, hrm]
          rw [show applyIncoming s (.remote r) =
            withNextId s (max s.nextId (r.guid + 1)) from
            applyIncoming_eq_foldl s _ [] hrec]
          exact Inv_withNextId s _ h (Nat.le_max_left _ _)
        · have hrec : reconcile s (.remote r) =
              planFor r.guid s [.putMirror r.guid r.fields] := by
            simp [reconcile, hl, hm, hrm]
          rw [show applyIncoming s (.remote r) =
            putMirrorSt s r.guid r.fields (max s.nextId (r.guid + 1)) from
            applyIncoming_eq_foldl s _ _ hrec]
          exact Inv_putMirrorSt s _ _ _ h (Nat.le_max_left _ _) hgub
    · have hloc : (getLocal s r.guid).isSome := by rw [hl]; rfl
      have ht : getTombstone s r.guid = false := h.2.2.2.1 r.guid hloc
      by_cases hu : l.unsynced = true
      · rcases hm : getMirror s r.guid with _ | m
        · have hrec : reconcile s (.remote r) =
              planFor r.guid s
                [.putLocal r.guid
                   ⟨merge3 l.record AddressFields.allAbsent r.fields,
                    decide (merge3 l.record AddressFields.allAbsent r.fields ≠
                      r.fields)⟩,
                 .putMirror r.guid r.fields] := by
            simp [reconcile, hl, hm, hu]
          rw [show applyIncoming s (.remote r) =
            putBothSt s r.guid
              ⟨merge3 l.record AddressFields.allAbsent r.fields,
               decide (merge3 l.record AddressFields.allAbsent r.fields ≠
                 r.fields)⟩
              r.fields (max s.nextId (r.guid + 1)) from
            applyIncoming_eq_foldl s _ _ hrec]
          exact Inv_putBothSt s _ _ _ _ h ht (Nat.le_max_left _ _) hgub
        · by_cases hrm : r.fields = m
          · have hrec : reconcile s (.remote r) = planFor r.guid s [] := by
              simp [reconcile, hl, hm, hu, hrm]
            rw [show applyIncoming s (.remote r) =
              withNextId s (max s.nextId (r.guid + 1)) from
              applyIncoming_eq_foldl s _ [] hrec]
            exact Inv_withNextId s _ h (Nat.le_max_left _ _)
          · have hrec : reconcile s (.remote r) =
                planFor r.guid s
                  [.putLocal r.guid
                     ⟨merge3 l.record m r.fields,
                      decide (merge3 l.record m r.fields ≠ r.fields)⟩,
                   .putMirror r.guid r.fields] := by
              simp [reconcile, hl, hm, hu, hrm]
            rw [show applyIncoming s (.remote r) =
              putBothSt s r.guid
                ⟨merge3 l.record m r.fields,
                 decide (merge3 l.record m r.fields ≠ r.fields)⟩
                r.fields (max s.nextId (r.guid + 1)) from
              applyIncoming_eq_foldl s _ _ hrec]
            exact Inv_putBothSt s _ _ _ _ h ht (Nat.le_max_left _ _) hgub
      · have hu2 : l.unsynced = false := by
          cases hv : l.unsynced
          · rfl
          · exact absurd hv hu
        rcases hm : getMirror s r.guid with _ | m
        · have hrec : reconcile s (.remote r) = planFor r.guid s [] := by
            simp [reconcile, hl, hm, hu2]
          rw [show applyIncoming s (.remote r) =
            withNextId s (max s.nextId (r.guid + 1)) from
            applyIncoming_eq_foldl s _ [] hrec]
          exact Inv_withNextId s _ h (Nat.le_max_left _ _)
        · have hrec : reconcile s (.remote r) =
              planFor r.guid s [.putLocal r.guid ⟨r.fields, false⟩,
                                .putMirror r.guid r.fields] := by
            simp [reconcile, hl, hm, hu2]
          rw [show applyIncoming s (.remote r) =
            putBothSt s r.guid ⟨r.fields, false⟩ r.fields
              (max s.nextId (r.guid + 1)) from
            applyIncoming_eq_foldl s _ _ hrec]
          exact Inv_putBothSt s _ _ _ _ h ht (Nat.le_max_left _ _) hgub

/-- Every reachable store state satisfies the storage invariant. -/
theorem Inv_reachable (s : StoreState) (h : Reachable s) : Inv s := by
  induction h with
  | empty =>
    refine ⟨?_, ?_, ?_, ?_, ?_, ?_, ?_⟩ <;> intro g <;>
      simp [StoreState.empty, getLocal, getMirror, getTombstone, alGet, gMem]
  | insert s f g s' hr hok ih => exact Inv_insertLocal s f g s' ih hok
  | update s g f s' hr hok ih => exact Inv_updateLocal s g f s' ih hok
  | delete s g hr ih => exact Inv_deleteLocal s g ih
  | incoming s c hr ih => exact Inv_applyIncoming s c ih

/-- C10.  In every state reachable by store operations and plan
applications, each guid keys at most one Local row, at most one Mirror row
and at most one Tombstone, and a Tombstone and a Local row never coexist for
the same guid. -/
theorem reachable_row_invariant (s : StoreState) (h : Reachable s) (g : Guid) :
    s.localRows.countP (fun p => decide (p.1 = g)) ≤ 1 ∧
    s.mirrorRows.countP (fun p => decide (p.1 = g)) ≤ 1 ∧
    s.tombstones.countP (fun x => decide (x = g)) ≤ 1 ∧
    ¬((getLocal s g).isSome ∧ getTombstone s g = true) := by
  obtain ⟨h1, h2, h3, h4, -, -, -⟩ := Inv_reachable s h
  refine ⟨h1 g, h2 g, h3 g, ?_⟩
  rintro ⟨ha, hb⟩
  rw [h4 g ha] at hb
  cases hb

/-- Witness for C10: the store reached by inserting the sample record into a
fresh store and then deleting an unrelated absent guid. -/
theorem reachable_row_invariant_witness :
    ((⟨[(0, ⟨sampleFields, true⟩)], [], [], 1⟩ :
        StoreState).localRows.countP (fun p => decide (p.1 = 0)) ≤ 1 ∧
     (⟨[(0, ⟨sampleFields, true⟩)], [], [], 1⟩ :
        StoreState).mirrorRows.countP (fun p => decide (p.1 = 0)) ≤ 1 ∧
     (⟨[(0, ⟨sampleFields, true⟩)], [], [], 1⟩ :
        StoreState).tombstones.countP (fun x => decide (x = 0)) ≤ 1 ∧
     ¬((getLocal ⟨[(0, ⟨sampleFields, true⟩)], [], [], 1⟩ (0 : Guid)).isSome ∧
       getTombstone ⟨[(0, ⟨sampleFields, true⟩)], [], [], 1⟩ (0 : Guid) = true)) :=
  reachable_row_invariant _
    (Reachable.insert StoreState.empty sampleFields 0 _ Reachable.empty rfl) 0

end Addresses
